import Mathlib

/-!
Verification development for the sxmlc XML library.

The repository holds two generations of the same library:
- the newer one, called NewGen below, from src/src/sxmlc.c
  (user-tag registry, DOM building through SAX callbacks);
- the older one, called OldGen below, from src/sxmlc.c
  (pre-root list plus root field, monolithic DOM loop).

Strings are modelled as lists of characters (the terminating NUL is
implicit: the end of the list).  Machine integers that carry sentinel
values (-1) are modelled as Int.  Allocation is modelled as always
succeeding; places where the C reads or writes out of bounds are noted
at the definition and totalized in the stated way.
-/

namespace Sxmlc

/-- C strings, without the terminating NUL. -/
abbrev CStr := List Char

def cstr (s : String) : CStr := s.data

/-- isspace from ctype.h in the C locale: space, \t, \n, \r, vertical tab, form feed. -/
def cIsSpace (c : Char) : Bool :=
  c == ' ' || c == '\t' || c == '\n' || c == '\r' || c == Char.ofNat 11 || c == Char.ofNat 12

/-- str[i] for an index possibly at or past the end: the NUL terminator
(any read beyond it would be out of bounds in C; such places are noted
where they occur). -/
def strAt (str : CStr) (i : Nat) : Char := str.getD i (Char.ofNat 0)

/- Tag-type constants.  The header sxmlc.h that defines them is not part
of the repository snapshot (only the two .c files are), so the concrete
values are modelled from the spec: distinct codes, with a reserved user
threshold TAG_USER below which XML_register_user_tag refuses to register.
Only distinctness, the sign of TAG_ERROR, TAG_NONE = 0 (the "error"
result of XML_parse_1string) and the TAG_USER threshold are ever used. -/

def TAG_ERROR : Int := -1
def TAG_NONE : Int := 0
def TAG_PARTIAL : Int := 1
def TAG_END : Int := 2
def TAG_FATHER : Int := 3
def TAG_SELF : Int := 4
def TAG_INSTR : Int := 5
def TAG_COMMENT : Int := 6
def TAG_CDATA : Int := 7
def TAG_DOCTYPE : Int := 8
def TAG_USER : Int := 100

/-- OldGen name for the processing-instruction kind. -/
def TAG_PROLOG : Int := TAG_INSTR

/-- OldGen name for the partial-comment continuation signal. -/
def TAG_PARTIAL_COMMENT : Int := TAG_PARTIAL

/-- XML_EVENT_* constants for the NewGen all_event callback; also only
declared in the missing header, modelled from the spec as distinct codes. -/
def XML_EVENT_START : Int := 0
def XML_EVENT_END : Int := 1
def XML_EVENT_TEXT : Int := 2

structure XMLAttribute where
  name : CStr
  value : CStr
  active : Bool
deriving DecidableEq

/-- The scalar fields of struct XMLNode.  The children array is kept
separately (XMLTree below) so that node-level operations stay
non-recursive, as in the C.  The father back-pointer and the user
pointer are not part of the value model: father is a non-owning
back-reference (spec, section 3) and is represented positionally by the
tree / cursor structures below. -/
structure XMLNode where
  tag : Option CStr
  text : Option CStr
  attributes : List XMLAttribute
  tag_type : Int
  active : Bool
deriving DecidableEq

/-- XMLNode_init (NewGen, also OldGen): all fields cleared; NewGen also
sets active to true. -/
def XMLNode_init : XMLNode :=
  { tag := none, text := none, attributes := [], tag_type := TAG_NONE, active := true }

/-- A node together with its children array. -/
inductive XMLTree where
  | node (data : XMLNode) (children : List XMLTree)

def XMLTree.data : XMLTree → XMLNode
  | .node d _ => d

def XMLTree.children : XMLTree → List XMLTree
  | .node _ c => c

namespace NewGen

/-- XMLNode_free (src/src/sxmlc.c:146): frees and clears attributes,
children, tag and text, and resets tag_type to TAG_NONE.  The active
flag is not touched. -/
def XMLNode_free (n : XMLTree) : XMLTree :=
  .node { tag := none, text := none, attributes := [], tag_type := TAG_NONE,
          active := n.data.active } []

/-- XMLNode_copy (src/src/sxmlc.c:184).  dst is freed first; a NULL src
resets dst and returns true.  Otherwise: the tag is string-copied when
src has one; the text copy is guarded by `if (dst->text != NULL)` on the
just-freed dst (line 203), so it never runs; attributes are copied
entry-wise with fresh strings; tag_type and active are copied.  When
copy_children is requested the C allocates an array of n_children
pointers and calls XMLNode_copy on those uninitialized pointers (lines
231-237); that path has no defined value and is modelled as `none`
whenever it would actually dereference one (src has children).  The
father and user pointer fields are copied in the C; they are outside
this value model. -/
def XMLNode_copy (dst : XMLTree) (src : Option XMLTree) (copy_children : Bool) :
    Option (Bool × XMLTree) :=
  let d := XMLNode_free dst
  match src with
  | none => some (true, d)
  | some s =>
      if copy_children && !s.children.isEmpty then none
      else
        some (true, .node
          { tag := s.data.tag
            , text := if d.data.text.isSome then s.data.text else d.data.text
            , attributes := s.data.attributes.map
                (fun a => { name := a.name, value := a.value, active := a.active })
            , tag_type := s.data.tag_type
            , active := s.data.active } [])

/-- The scan of XMLNode_search_attribute (src/src/sxmlc.c:317): first
index, counting from the start of the given suffix, whose attribute is
active and has the wanted name. -/
def attrFind : List XMLAttribute → CStr → Option Nat
  | [], _ => none
  | a :: rest, attr_name =>
      if a.active && a.name == attr_name then some 0
      else (attrFind rest attr_name).map (· + 1)

/-- XMLNode_search_attribute (src/src/sxmlc.c:311): guards on empty name
and on isearch out of [0, n_attributes], then returns the lowest index
at or after isearch holding an ACTIVE attribute with the given name,
or -1. -/
def XMLNode_search_attribute (node : XMLNode) (attr_name : CStr) (isearch : Int) : Int :=
  if attr_name = [] ∨ isearch < 0 ∨ isearch > (node.attributes.length : Int) then -1
  else
    match attrFind (node.attributes.drop isearch.toNat) attr_name with
    | some j => ((isearch.toNat + j : Nat) : Int)
    | none => -1

/-- pt[i].value = fresh copy of v, all other entries untouched
(src/src/sxmlc.c:285-287). -/
def setAttrValueAt : List XMLAttribute → Nat → CStr → List XMLAttribute
  | [], _, _ => []
  | a :: rest, 0, v => { a with value := v } :: rest
  | a :: rest, i + 1, v => a :: setAttrValueAt rest i v

/-- XMLNode_set_attribute (src/src/sxmlc.c:275).  Empty or missing name
gives -1.  If XMLNode_search_attribute finds an index (an ACTIVE match),
the value there is replaced in place; otherwise a new entry is
reallocated at the end with fresh copies of name and value.  The C never
writes the new entry's active field (lines 294-301), so the appended
flag is the uninitialized memory returned by realloc: it is passed here
as the explicit parameter uninit_active.  Returns n_attributes. -/
def XMLNode_set_attribute (uninit_active : Bool) (node : XMLNode)
    (attr_name attr_value : CStr) : Int × XMLNode :=
  if attr_name = [] then (-1, node)
  else
    let i := XMLNode_search_attribute node attr_name 0
    if 0 ≤ i then
      let node2 := { node with attributes := setAttrValueAt node.attributes i.toNat attr_value }
      ((node2.attributes.length : Int), node2)
    else
      let node2 := { node with attributes :=
        node.attributes ++ [{ name := attr_name, value := attr_value, active := uninit_active }] }
      ((node2.attributes.length : Int), node2)

/-- XMLNode_remove_attribute (src/src/sxmlc.c:323): bounds-checked;
frees the entry, shifts the tail left by one (memmove keeps the relative
order) and shrinks the array.  Returns the new n_attributes, or -1. -/
def XMLNode_remove_attribute (node : XMLNode) (i_attr : Int) : Int × XMLNode :=
  if i_attr < 0 ∨ (node.attributes.length : Int) ≤ i_attr then (-1, node)
  else
    let attrs := node.attributes.take i_attr.toNat ++ node.attributes.drop (i_attr.toNat + 1)
    ((attrs.length : Int), { node with attributes := attrs })

end NewGen

/-- struct _TAG (src/src/sxmlc.c:35): a special or user tag kind with its
start and end delimiters.  The end field is renamed endD (Lean keyword);
the len_start and len_end members are the list lengths. -/
structure _TAG where
  tag_type : Int
  start : CStr
  endD : CStr

/-- strncmp(str, pre, strlen(pre)) == 0. -/
def startsWithCStr : CStr → CStr → Bool
  | _, [] => true
  | [], _ :: _ => false
  | c :: cs, p :: ps => c == p && startsWithCStr cs ps

/-- Scan a suffix of the string, n being the absolute index of its
first character: absolute index of the first character satisfying p,
or the index of the NUL (the end) when none does. -/
def scanFrom (p : Char → Bool) : List Char → Nat → Nat
  | [], n => n
  | c :: rest, n => if p c then n else scanFrom p rest (n + 1)

/-- First index at or after n whose character satisfies p; the scan
stops at the NUL, i.e. at the end of the list. -/
def scanIdx (str : CStr) (p : Char → Bool) (n : Nat) : Nat :=
  scanFrom p (str.drop n) n

/-- while (isspace(str[n])) n++; -/
def skipSpacesIdx (str : CStr) (n : Nat) : Nat :=
  scanIdx str (fun c => !cIsSpace c) n

/-- strchr(str + n, c): index of the first occurrence of c at or after
n, or none when the NUL is reached first. -/
def strchrFrom (str : CStr) (n : Nat) (c : Char) : Option Nat :=
  let i := scanIdx str (fun d => d == c) n
  if i < str.length then some i else none

namespace NewGen

/-- The external text codec from utils.h (not under src; the spec,
section 1, treats escaping as an external pure collaborator pair).
Modelled from the spec: identity on text containing no escape
sequences, which is the only way it is exercised here. -/
def str_unescape (s : CStr) : CStr := s

/-- The external HTML-entity decoder from utils.h; same modelling as
str_unescape. -/
def html2str (s : CStr) : CStr := s

/-- The built-in special tags _spec (src/src/sxmlc.c:53). -/
def _spec : List _TAG :=
  [ { tag_type := TAG_INSTR, start := cstr "<?", endD := cstr "?>" }
  , { tag_type := TAG_COMMENT, start := cstr "<!--", endD := cstr "-->" }
  , { tag_type := TAG_CDATA, start := cstr "<![CDATA[", endD := cstr "]]/>" } ]

/-- XML_register_user_tag (src/src/sxmlc.c:65).  The global registry
_user_tags is threaded explicitly.  Rejects a kind below TAG_USER, a
start delimiter not beginning with a left angle bracket, and an end
delimiter not ending with a right angle bracket (for an empty end
delimiter the C reads end[-1], out of bounds; modelled as rejection).
On success the pair is appended. -/
def XML_register_user_tag (tags : List _TAG) (tag_type : Int) (s e : CStr) :
    Bool × List _TAG :=
  if tag_type < TAG_USER then (false, tags)
  else if strAt s 0 ≠ '<' then (false, tags)
  else if e.getLast? ≠ some '>' then (false, tags)
  else (true, tags ++ [{ tag_type := tag_type, start := s, endD := e }])

/-- _parse_special_tag (src/src/sxmlc.c:681).  If the start delimiter
does not match: TAG_NONE.  If the last len_end characters are not the
end delimiter: TAG_PARTIAL (a greater-than sign probably sits inside the
tag).  Otherwise the payload between the delimiters is stored as the
node tag.  (When the string is shorter than the end delimiter the C
compares from before the buffer; totalized here by comparing the whole
string, which is unequal in every reachable case.) -/
def _parse_special_tag (str : CStr) (t : _TAG) : Int × Option CStr :=
  let len := str.length
  if !startsWithCStr str t.start then (TAG_NONE, none)
  else if str.drop (len - t.endD.length) ≠ t.endD then (TAG_PARTIAL, none)
  else (t.tag_type, some ((str.drop t.start.length).take (len - t.start.length - t.endD.length)))

/-- The two delimiter-table loops of XML_parse_1string
(src/src/sxmlc.c:713 and 743): first tag whose _parse_special_tag result
is not TAG_NONE, with its payload.  (The TAG_ERROR arm of the C switch
is dead: _parse_special_tag only returns TAG_NONE, TAG_PARTIAL or the
tag kind.) -/
def specialLoop (str : CStr) : List _TAG → Option (Int × Option CStr)
  | [] => none
  | t :: rest =>
      let r := _parse_special_tag str t
      if r.1 = TAG_NONE then specialLoop str rest else some r

/-- XML_parse_attribute (src/src/sxmlc.c:639) on a NUL-terminated
fragment.  Returns (0, none) when no equals sign is found; otherwise the
name is the text before the equals sign or first space, the value the
text after it (quote-stripped when it opens with a double quote, where
the copy loop stops one character before the end so as to skip the
closing quote), and the status is 2 instead of 1 when the value opened
with a quote but the final character reached is not one.  The name and
value are heap copies; the value goes through the external codec.
(The C allocates strlen(str)-n1 bytes for an unquoted value that needs
one more for its NUL, an off-by-one overflow that does not change the
value stored.) -/
def XML_parse_attribute (str : CStr) : Int × Option XMLAttribute :=
  let len := str.length
  let n0 := scanIdx str (fun c => c == '=' || cIsSpace c) 0
  let n1 := skipSpacesIdx str n0
  if strAt str n1 ≠ '=' then (0, none)
  else
    let n1 := skipSpacesIdx str (n1 + 1)
    let remQ : Nat := if strAt str n1 == '"' then 1 else 0
    let name := str_unescape (str.take n0)
    let vstart := n1 + remQ
    let vstop := len - remQ
    let value := html2str (str_unescape ((str.take vstop).drop vstart))
    let pFinal := max vstart vstop
    let ret : Int := if remQ = 1 ∧ strAt str pFinal ≠ '"' then 2 else 1
    (ret, some { name := name, value := value, active := true })

/-- The quoted-value scan of XML_parse_1string (src/src/sxmlc.c:791):
from nn, advance to the closing double quote, skipping one extra
character after a backslash; stops at the NUL.  (With no closing quote
the caller then addresses one past the NUL, out of bounds in the C;
totalized: indices beyond the end stay beyond the end.) -/
def quoteScanFrom : List Char → Nat → Nat
  | [], nn => nn
  | c :: rest, nn =>
      if c == '"' then nn
      else if c == '\\' then
        match rest with
        | [] => nn + 2
        | _ :: rest2 => quoteScanFrom rest2 (nn + 2)
      else quoteScanFrom rest (nn + 1)

def quoteScan (str : CStr) (nn : Nat) : Nat :=
  quoteScanFrom (str.drop nn) nn

/-- The attribute loop of XML_parse_1string (src/src/sxmlc.c:766-808).
n is the scan position; reaching n ≥ len without having returned falls
out of the while loop into the "WE SHOULD NOT BE HERE" trace and then
parse_err, which frees the node and returns 0.  The fuel argument only
bounds the recursion; it is started at len + 1, which the loop (whose
position strictly increases) can never exhaust. -/
def parseAttrLoop (str : CStr) (len : Nat) : XMLNode → Nat → Nat → Int × XMLNode
  | _, _, 0 => (0, XMLNode_init)
  | node, n, fuel + 1 =>
    if n ≥ len then (0, { XMLNode_init with active := node.active })
    else
      let n := skipSpacesIdx str n
      if strAt str n == '>' then (TAG_FATHER, { node with tag_type := TAG_FATHER })
      else if str.drop n = cstr "/>" then (TAG_SELF, { node with tag_type := TAG_SELF })
      else
        match strchrFrom str n '=' with
        | none => (0, { XMLNode_init with active := node.active })
        | some pe =>
            let p := skipSpacesIdx str (pe + 1)
            let nn := if strAt str p == '"' then quoteScan str (p + 1) + 1
                      else scanIdx str (fun c => cIsSpace c || c == '/' || c == '>') (p + 1)
            let frag := (str.take nn).drop n
            match XML_parse_attribute frag with
            | (0, _) => (0, { XMLNode_init with active := node.active })
            | (_, none) => (0, { XMLNode_init with active := node.active })
            | (_, some a) =>
                parseAttrLoop str len { node with attributes := node.attributes ++ [a] } nn fuel

/-- XML_parse_1string (src/src/sxmlc.c:701).  The user-tag registry is
threaded explicitly; the node is freshly initialized (every caller in
the repository passes a just-initialized or just-freed node).  Order:
malformed-string guard, built-in special tags, DOCTYPE (with its
bracket-dependent terminator), user tags, then closing tag or element
with attributes. -/
def XML_parse_1string (userTags : List _TAG) (str : CStr) : Int × XMLNode :=
  let xmlnode := XMLNode_init
  let len := str.length
  if str.head? ≠ some '<' ∨ str.getLast? ≠ some '>' then (0, xmlnode)
  else
    match specialLoop str _spec with
    | some (n, some payload) => (n, { xmlnode with tag := some payload, tag_type := n })
    | some (n, none) => (n, xmlnode)
    | none =>
      if startsWithCStr str (cstr "<!DOCTYPE") then
        let nn : Nat := if (strchrFrom str 9 '[').isSome then 1 else 0
        if nn = 1 ∧ str.drop (len - 2) ≠ cstr "]>" then (TAG_PARTIAL, xmlnode)
        else (TAG_DOCTYPE, { xmlnode with tag := some ((str.drop 9).take (len - 10 - nn))
                                        , tag_type := TAG_DOCTYPE })
      else
        match specialLoop str userTags with
        | some (n, some payload) => (n, { xmlnode with tag := some payload, tag_type := n })
        | some (n, none) => (n, xmlnode)
        | none =>
          let tag_end : Nat := if strAt str 1 == '/' then 1 else 0
          let n := scanIdx str (fun c => c == '>' || c == '/' || cIsSpace c) (1 + tag_end)
          let nodeTag := (str.take n).drop (1 + tag_end)
          if tag_end = 1 then (TAG_END, { xmlnode with tag := some nodeTag, tag_type := TAG_END })
          else parseAttrLoop str len { xmlnode with tag := some nodeTag } n (len + 1)

end NewGen

/-!
The SAX drivers.  One iteration of the parse-file loop reads one
chunk up to the next greater-than sign: the text before the first
left angle bracket, then the tag itself, re-reading further chunks
while the classifier answers TAG_PARTIAL.  The input is modelled as
the list of these fully resolved iterations: text part plus the final
classification of the tag, where none stands for the fatal cases
diagnosed after the text callbacks (a syntax error from the
classifier, or input exhausted during a partial tag).  End of the
list is end of file; the pre-text fatal case (a chunk with no left
angle bracket at all), which raises no callback whatsoever, is not
represented.
-/

structure SaxItem where
  text : CStr
  parsed : Option XMLNode

/-- Which callback slot was raised.  startDoc, endDoc and newAttribute
exist only in the OldGen callback set. -/
inductive CbKind where
  | newText
  | startNode
  | endNode
  | allEvent (ev : Int)
  | startDoc
  | endDoc
  | newAttribute
deriving DecidableEq

/-- One raised callback together with the value it returned (false is
the stop signal). -/
structure Raised where
  kind : CbKind
  resp : Bool
deriving DecidableEq

/-- Outcome of one loop iteration: fall through to the next read, break
with ret still true (a listener stop), or break with ret false (an
error). -/
inductive StepOut where
  | cont
  | stopped
  | failed
deriving DecidableEq

/-- Raise a sequence of optional callbacks in order, stopping right
after the first one that returns the stop signal; this is the
`exit = !cb(...); if (exit) break;` pattern of the NewGen driver.
Returns the raised trace and whether it stopped. -/
def chain : List (Option Raised) → List Raised × Bool
  | [] => ([], false)
  | none :: rest => chain rest
  | some e :: rest =>
      if e.resp then
        let r := chain rest
        (e :: r.1, r.2)
      else ([e], true)

namespace NewGen

/-- struct SAX_Callbacks (NewGen): any subset of the four slots. -/
structure SAX_Callbacks where
  start_node : Option (XMLNode → Bool)
  end_node : Option (XMLNode → Bool)
  new_text : Option (CStr → Bool)
  all_event : Option (Int → Option XMLNode → Option CStr → Bool)

/-- The text callbacks of one iteration (src/src/sxmlc.c:849-858):
raised only when the text before the tag is non-empty and some listener
is registered; new_text gets the unescaped text, then all_event gets an
XML_EVENT_TEXT. -/
def textCbs (sax : SAX_Callbacks) (it : SaxItem) : List (Option Raised) :=
  if it.text ≠ [] ∧ (sax.new_text.isSome ∨ sax.all_event.isSome) then
    [ sax.new_text.map (fun f => { kind := .newText, resp := f (str_unescape it.text) })
    , sax.all_event.map (fun g =>
        { kind := .allEvent XML_EVENT_TEXT, resp := g XML_EVENT_TEXT none (some it.text) }) ]
  else []

/-- The tag callbacks of one iteration (src/src/sxmlc.c:868-904).  A
TAG_END with a registered end listener raises end_node then
all_event(END).  Every other tag (including, faithfully to the C, a
TAG_END with neither end_node nor all_event registered) raises
start_node and all_event(START), and, when it is not a TAG_FATHER, the
end pair right after. -/
def tagCbs (sax : SAX_Callbacks) (node : XMLNode) : List (Option Raised) :=
  if node.tag_type = TAG_END ∧ (sax.end_node.isSome ∨ sax.all_event.isSome) then
    [ sax.end_node.map (fun f => { kind := .endNode, resp := f node })
    , sax.all_event.map (fun g =>
        { kind := .allEvent XML_EVENT_END, resp := g XML_EVENT_END (some node) none }) ]
  else
    [ sax.start_node.map (fun f => { kind := .startNode, resp := f node })
    , sax.all_event.map (fun g =>
        { kind := .allEvent XML_EVENT_START, resp := g XML_EVENT_START (some node) none }) ]
    ++ (if node.tag_type ≠ TAG_FATHER ∧ (sax.end_node.isSome ∨ sax.all_event.isSome) then
        [ sax.end_node.map (fun f => { kind := .endNode, resp := f node })
        , sax.all_event.map (fun g =>
            { kind := .allEvent XML_EVENT_END, resp := g XML_EVENT_END (some node) none }) ]
      else [])

/-- One iteration of XMLDoc_parse_file_SAX (src/src/sxmlc.c:833-905):
text callbacks, then the tag (whose classification failure breaks with
ret = false before any further callback), then the tag callbacks. -/
def stepItem (sax : SAX_Callbacks) (it : SaxItem) : List Raised × StepOut :=
  let t := chain (textCbs sax it)
  if t.2 then (t.1, .stopped)
  else
    match it.parsed with
    | none => (t.1, .failed)
    | some node =>
        let u := chain (tagCbs sax node)
        (t.1 ++ u.1, if u.2 then .stopped else .cont)

/-- XMLDoc_parse_file_SAX (src/src/sxmlc.c:817): the loop over the
resolved input items.  A stop breaks out with ret still true; an error
breaks out with ret false; end of input returns ret. -/
def saxRun (sax : SAX_Callbacks) : List SaxItem → List Raised × Bool
  | [] => ([], true)
  | it :: rest =>
      match stepItem sax it with
      | (tr, .cont) =>
          let r := saxRun sax rest
          (tr ++ r.1, r.2)
      | (tr, .stopped) => (tr, true)
      | (tr, .failed) => (tr, false)

end NewGen

namespace OldGen

/-- The OldGen callback set (src/sxmlc.c:740 uses start_doc, end_doc,
start_node, end_node, new_text and new_attribute; the header is not in
the repository, the slots are those the driver dereferences). -/
structure SAX_Callbacks where
  start_doc : Option (XMLNode → Bool)
  end_doc : Option (XMLNode → Bool)
  start_node : Option (XMLNode → Bool)
  end_node : Option (XMLNode → Bool)
  new_text : Option (CStr → Bool)
  new_attribute : Option (CStr → CStr → Bool)

/-- The attribute-callback loop at src/sxmlc.c:830-833: raised for each
attribute of the node while no stop has been seen. -/
def attrCbLoop (f : CStr → CStr → Bool) : List XMLAttribute → List Raised × Bool
  | [] => ([], false)
  | a :: rest =>
      let r := f a.name a.value
      if r then
        let t := attrCbLoop f rest
        ({ kind := .newAttribute, resp := r } :: t.1, t.2)
      else ([{ kind := .newAttribute, resp := r }], true)

/-- One iteration of the OldGen XMLDoc_parse_file_SAX
(src/sxmlc.c:757-834).  The Bool state is whether the root has been
seen (root.tag != NULL).  Differences from NewGen that matter here,
kept faithfully: new_text is raised even for empty text; for a
pre-root comment or prolog, start_node and end_node are raised with no
stop check in between, the second return value overwriting the first
in the shared exit variable (lines 812-813); the attribute loop runs
at line 830 for every non-breaking iteration. -/
def stepItemOld (sax : SAX_Callbacks) (rootSet : Bool) (it : SaxItem) :
    List Raised × Bool × StepOut :=
  let tTr : List Raised :=
    match sax.new_text with
    | some f => [{ kind := .newText, resp := f it.text }]
    | none => []
  if tTr.any (fun e => !e.resp) then (tTr, rootSet, .stopped)
  else
    match it.parsed with
    | none => (tTr, rootSet, .failed)
    | some node =>
      if node.tag_type = TAG_END ∧ sax.end_node.isSome then
        match sax.end_node with
        | some f =>
            let r := f node
            if !r then (tTr ++ [{ kind := .endNode, resp := r }], rootSet, .stopped)
            else
              match sax.new_attribute with
              | some g =>
                  let t := attrCbLoop g node.attributes
                  (tTr ++ [{ kind := .endNode, resp := r }] ++ t.1, rootSet,
                   if t.2 then .stopped else .cont)
              | none => (tTr ++ [{ kind := .endNode, resp := r }], rootSet, .cont)
        | none => (tTr, rootSet, .cont)
      else
        let body : List Raised × Bool × Bool :=
          -- trace, new rootSet, exit flag as it stands at line 827
          if !rootSet then
            if node.tag_type = TAG_FATHER then
              match sax.start_doc with
              | some f => ([{ kind := .startDoc, resp := f node }], true,
                           !(f node))
              | none => ([], true, false)
            else if node.tag_type = TAG_PROLOG ∨ node.tag_type = TAG_COMMENT then
              let s1 : List Raised :=
                match sax.start_node with
                | some f => [{ kind := .startNode, resp := f node }]
                | none => []
              match sax.end_node with
              | some g => (s1 ++ [{ kind := .endNode, resp := g node }], rootSet, !(g node))
              | none => (s1, rootSet, s1.any (fun e => !e.resp))
            else ([], rootSet, false)    -- malformed root: error, no callback
          else
            match sax.start_node with
            | some f =>
                let r := f node
                if !r then ([{ kind := .startNode, resp := r }], rootSet, true)
                else if node.tag_type ≠ TAG_FATHER then
                  match sax.end_node with
                  | some g => ([{ kind := .startNode, resp := r },
                                { kind := .endNode, resp := g node }], rootSet, !(g node))
                  | none => ([{ kind := .startNode, resp := r }], rootSet, false)
                else ([{ kind := .startNode, resp := r }], rootSet, false)
            | none =>
                if node.tag_type ≠ TAG_FATHER then
                  match sax.end_node with
                  | some g => ([{ kind := .endNode, resp := g node }], rootSet, !(g node))
                  | none => ([], rootSet, false)
                else ([], rootSet, false)
        if !rootSet ∧ node.tag_type ≠ TAG_FATHER ∧ node.tag_type ≠ TAG_PROLOG ∧
           node.tag_type ≠ TAG_COMMENT then
          (tTr ++ body.1, body.2.1, .failed)
        else if body.2.2 then (tTr ++ body.1, body.2.1, .stopped)
        else
          match sax.new_attribute with
          | some g =>
              let t := attrCbLoop g node.attributes
              (tTr ++ body.1 ++ t.1, body.2.1, if t.2 then .stopped else .cont)
          | none => (tTr ++ body.1, body.2.1, .cont)

/-- The OldGen while loop with the rootSet state threaded. -/
def saxLoop (sax : SAX_Callbacks) : Bool → List SaxItem → List Raised × Bool
  | _, [] => ([], true)
  | rootSet, it :: rest =>
      match stepItemOld sax rootSet it with
      | (tr, rs, .cont) =>
          let r := saxLoop sax rs rest
          (tr ++ r.1, r.2)
      | (tr, _, .stopped) => (tr, true)
      | (tr, _, .failed) => (tr, false)

/-- OldGen XMLDoc_parse_file_SAX (src/sxmlc.c:740): after the loop ends
for any reason, a registered end_doc is raised unconditionally
(line 838); its return value is discarded.  The root payload it
receives is irrelevant to the trace and passed as a fresh node. -/
def saxRun (sax : SAX_Callbacks) (items : List SaxItem) : List Raised × Bool :=
  let r := saxLoop sax false items
  (r.1 ++ (match sax.end_doc with
           | some f => [{ kind := .endDoc, resp := f XMLNode_init }]
           | none => []), r.2)

end OldGen

namespace NewGen

/-!
The NewGen tree builder (DOMXMLDoc_node_start / _end / _text,
src/src/sxmlc.c:914-955) mutates a document through a cursor pointer.
Functionally: the chain of currently open nodes is a stack of frames
(node data plus the children closed so far); a node is attached to its
father when the cursor leaves it, which puts it at the same position
the C gives it when attaching it at start time, since children only
ever get appended and exactly one top-level frame can be open at a
time (the cursor chain).  top is doc->nodes restricted to the closed
top-level nodes, i_root is doc->i_root (computed at start time from
the position the open node will close into, which is top.length
because nothing else can close into top before it).
-/

structure DOM_through_SAX where
  top : List XMLTree
  i_root : Int
  stack : List (XMLNode × List XMLTree)

def DOM_init : DOM_through_SAX := { top := [], i_root := -1, stack := [] }

/-- DOMXMLDoc_node_start (src/src/sxmlc.c:914): allocate a fresh node,
shallow-copy the event node into it (XMLNode_copy with copy_children
false), attach it under the cursor (or at document level, recording
i_root for the first TAG_FATHER there), and move the cursor to it.
Returns none where the C returns false (allocation or copy failure;
never in this model). -/
def DOMXMLDoc_node_start (node : XMLNode) (dom : DOM_through_SAX) :
    Option DOM_through_SAX :=
  match XMLNode_copy (XMLTree.node XMLNode_init []) (some (XMLTree.node node [])) false with
  | none => none
  | some (ok, newTree) =>
      if !ok then none
      else
        let dom :=
          if dom.stack.isEmpty then
            { dom with i_root :=
                if dom.i_root < 0 ∧ node.tag_type = TAG_FATHER then (dom.top.length : Int)
                else dom.i_root }
          else dom
        some { dom with stack := (newTree.data, []) :: dom.stack }

/-- DOMXMLDoc_node_end (src/src/sxmlc.c:936): fails only when no node
is open; otherwise the cursor moves to its father.  The tag name
carried by the closing node is never examined. -/
def DOMXMLDoc_node_end (_node : XMLNode) (dom : DOM_through_SAX) :
    Option DOM_through_SAX :=
  match dom.stack with
  | [] => none
  | (d, cs) :: rest =>
      let finished := XMLTree.node d cs
      match rest with
      | [] => some { dom with top := dom.top ++ [finished], stack := [] }
      | (pd, pcs) :: rest2 =>
          some { dom with stack := (pd, pcs ++ [finished]) :: rest2 }

/-- The whitespace test of DOMXMLDoc_node_text (src/src/sxmlc.c:949):
`while(*p && isspace(*p++)) ; if (*p == 0)`.  The post-increment has
already advanced past the first non-space character when the loop
exits, so the test looks at the character after it: a text whose first
non-space character is its last character is also reported as
spaces-only. -/
def dom_text_only_spaces : CStr → Bool
  | [] => true
  | c :: rest => if cIsSpace c then dom_text_only_spaces rest else rest.isEmpty

/-- DOMXMLDoc_node_text (src/src/sxmlc.c:945): texts its scan takes for
whitespace are accepted and ignored; otherwise a missing cursor is a
failure, and the cursor node's text pointer is overwritten with a
strdup of the event text (the previous text is not freed and not
concatenated). -/
def DOMXMLDoc_node_text (text : CStr) (dom : DOM_through_SAX) :
    Option DOM_through_SAX :=
  if dom_text_only_spaces text then some dom
  else
    match dom.stack with
    | [] => none
    | (d, cs) :: rest =>
        some { dom with stack := ({ d with text := some text }, cs) :: rest }

/-- The events XMLDoc_parse_file_DOM wires into XMLDoc_parse_file_SAX
(src/src/sxmlc.c:957): text, start and end. -/
inductive DOMEvent where
  | text (t : CStr)
  | start (node : XMLNode)
  | endTag (node : XMLNode)

def domApply (dom : DOM_through_SAX) : DOMEvent → Option DOM_through_SAX
  | .text t => DOMXMLDoc_node_text t dom
  | .start n => DOMXMLDoc_node_start n dom
  | .endTag n => DOMXMLDoc_node_end n dom

/-- The event stream as the builder sees it.  none is a callback
returning false, which XMLDoc_parse_file_SAX turns into a stop and
XMLDoc_parse_file_DOM into failure (it then frees the document). -/
def domRun (dom : DOM_through_SAX) : List DOMEvent → Option DOM_through_SAX
  | [] => some dom
  | e :: rest =>
      match domApply dom e with
      | none => none
      | some dom2 => domRun dom2 rest

/-- Close the tree t into its chain of open ancestors, innermost
first, attaching the outermost to the document level. -/
def closeUp (t : XMLTree) : List (XMLNode × List XMLTree) → List XMLTree → List XMLTree
  | [], top => top ++ [t]
  | (pd, pcs) :: rest, top => closeUp (XMLTree.node pd (pcs ++ [t])) rest top

/-- Materialize the document at end of input: nodes still open stay
attached where node_start put them, so closing every frame in cursor
order reproduces doc->nodes and doc->i_root. -/
def closeAll : List (XMLNode × List XMLTree) → List XMLTree → List XMLTree
  | [], top => top
  | (d, cs) :: rest, top => closeUp (XMLTree.node d cs) rest top

def domFinalize (dom : DOM_through_SAX) : List XMLTree × Int :=
  (closeAll dom.stack dom.top, dom.i_root)

end NewGen

namespace OldGen

/-!
The OldGen DOM loop (XMLDoc_parse_file_DOM, src/sxmlc.c:618-738) keeps
a father pointer into the document being built.  Functional model:
rootData is doc->root (its data and its closed children) once set;
path is the chain of open descendants below the root, innermost first;
fatherNull tracks the literal father == NULL state, which is distinct
from the structure (after the root opens, and again after it closes,
father is NULL and is lazily re-pointed at doc->root when the next
node is added, line 719).  As with the NewGen builder, a child is
attached to its father functionally at close time, which reproduces
the order the C produces by attaching it at add time.
-/

inductive DomErr where
  | syntaxErr
  | textBeforeRoot
  | endAtNullFather
  | endMismatch (got expected : CStr)
  | malformedRoot
deriving DecidableEq

structure OldDoc where
  pre_root : List XMLTree
  rootData : Option (XMLNode × List XMLTree)
  path : List (XMLNode × List XMLTree)
  fatherNull : Bool

def OldDoc_init : OldDoc :=
  { pre_root := [], rootData := none, path := [], fatherNull := true }

/-- The node the father pointer designates, when not NULL. -/
def fatherData (st : OldDoc) : Option XMLNode :=
  if st.fatherNull then none
  else
    match st.path with
    | (d, _) :: _ => some d
    | [] => st.rootData.map (fun r => r.1)

/-- Append t to father->text (src/sxmlc.c:662-672: realloc to the
combined size and strcpy at the old length). -/
def appendFatherText (st : OldDoc) (t : CStr) : OldDoc :=
  match st.path with
  | (d, cs) :: rest =>
      { st with path := ({ d with text := some (d.text.getD [] ++ t) }, cs) :: rest }
  | [] =>
      match st.rootData with
      | some (d, cs) =>
          { st with rootData := some ({ d with text := some (d.text.getD [] ++ t) }, cs) }
      | none => st

/-- father = father->father (src/sxmlc.c:685), closing the innermost
open node into its father. -/
def popFather (st : OldDoc) : OldDoc :=
  match st.path with
  | [] => { st with fatherNull := true }
  | (d, cs) :: rest =>
      let finished := XMLTree.node d cs
      match rest with
      | [] =>
          match st.rootData with
          | some (rd, rcs) => { st with rootData := some (rd, rcs ++ [finished]), path := [] }
          | none => { st with path := [] }
      | (pd, pcs) :: rest2 =>
          { st with path := (pd, pcs ++ [finished]) :: rest2 }

/-- Add a parsed non-end node under the father (src/sxmlc.c:700-729). -/
def addNode (st : OldDoc) (node : XMLNode) : Except DomErr OldDoc :=
  if st.rootData.isNone then
    if node.tag_type = TAG_FATHER then
      .ok { st with rootData := some (node, []) }     -- father stays NULL (the C does not set it)
    else if node.tag_type = TAG_PROLOG ∨ node.tag_type = TAG_COMMENT then
      .ok { st with pre_root := st.pre_root ++ [XMLTree.node node []] }
    else .error .malformedRoot
  else
    let st := if st.fatherNull then { st with fatherNull := false } else st
    if node.tag_type = TAG_FATHER then
      .ok { st with path := (node, []) :: st.path }
    else
      match st.path with
      | (d, cs) :: rest =>
          .ok { st with path := (d, cs ++ [XMLTree.node node []]) :: rest }
      | [] =>
          match st.rootData with
          | some (rd, rcs) => .ok { st with rootData := some (rd, rcs ++ [XMLTree.node node []]) }
          | none => .error .malformedRoot   -- unreachable: rootData is set in this branch

/-- One iteration of the OldGen DOM loop (src/sxmlc.c:635-731): the
text before the tag (appended to father->text; non-space text with a
NULL father is the "Text before root" fatal error), then the parsed
tag: a TAG_END must carry the father's tag name (mismatch is the
"Unexpected tag end" fatal error; with a NULL father the C passes NULL
to strcmp, modelled as a distinct error) and moves father up;
any other tag is added under the father. -/
def oldDomStep (st : OldDoc) (it : SaxItem) : Except DomErr OldDoc :=
  let hasText := it.text.any (fun c => !cIsSpace c)
  if hasText ∧ st.fatherNull then .error .textBeforeRoot
  else
    let st := if hasText then appendFatherText st it.text else st
    match it.parsed with
    | none => .error .syntaxErr
    | some node =>
        if node.tag_type = TAG_END then
          match fatherData st with
          | none => .error .endAtNullFather
          | some fd =>
              if node.tag ≠ fd.tag then
                .error (.endMismatch (node.tag.getD []) (fd.tag.getD []))
              else .ok (popFather st)
        else addNode st node

def oldDomRun (st : OldDoc) : List SaxItem → Except DomErr OldDoc
  | [] => .ok st
  | it :: rest =>
      match oldDomStep st it with
      | .error e => .error e
      | .ok st2 => oldDomRun st2 rest

end OldGen

/-! ## Claim inputs -/

/-- Left curly brace, written by code to keep brace characters out of
string literals. -/
def braceL : Char := Char.ofNat 123

/-- Right curly brace. -/
def braceR : Char := Char.ofNat 125

/-- The start event node for an element named root. -/
def nodeRootStart : XMLNode :=
  { tag := some (cstr "root"), text := none, attributes := [], tag_type := TAG_FATHER, active := true }

/-- The start event node for an element named a. -/
def nodeAStart : XMLNode :=
  { tag := some (cstr "a"), text := none, attributes := [], tag_type := TAG_FATHER, active := true }

/-- The end event node produced by a closing root tag. -/
def nodeRootEnd : XMLNode :=
  { tag := some (cstr "root"), text := none, attributes := [], tag_type := TAG_END, active := true }

/-- The event stream the SAX layer hands the tree builder for the
document root-open, a-open, root-close: the mismatched close of the
claims. -/
def mismatchEvents : List NewGen.DOMEvent :=
  [.start nodeRootStart, .start nodeAStart, .endTag nodeRootEnd]

/-- The same input as iteration items for the OldGen DOM loop. -/
def mismatchItems : List SaxItem :=
  [⟨[], some nodeRootStart⟩, ⟨[], some nodeAStart⟩, ⟨[], some nodeRootEnd⟩]

/-! ## C1 -/

/-- C1: the claim says an End event succeeds only when the closing name
equals the open element's tag, and that parsing root-open, a-open,
root-close aborts with a structural error.  The NewGen tree builder
(DOMXMLDoc_node_end) never compares the names: on that very stream it
succeeds and builds a document whose root element root holds the child
a, with i_root = 0 — no error.  The OldGen DOM loop does perform the
check, and fails there with the mismatch error naming the received tag
root and the expected tag a, exactly as the claim describes. -/
theorem C1_end_event_name_check :
    (NewGen.domRun NewGen.DOM_init mismatchEvents).map NewGen.domFinalize
      = some ([XMLTree.node nodeRootStart [XMLTree.node nodeAStart []]], 0)
  ∧ OldGen.oldDomRun OldGen.OldDoc_init mismatchItems
      = .error (.endMismatch (cstr "root") (cstr "a")) :=
  ⟨rfl, rfl⟩

/-! ## C2 -/

/-- An element node a with text hi and one attribute, to be copied. -/
def copySrc : XMLTree :=
  .node { tag := some (cstr "a"), text := some (cstr "hi")
        , attributes := [{ name := cstr "x", value := cstr "1", active := true }]
        , tag_type := TAG_FATHER, active := true } []

/-- C2: the claim says copy always gives dst string-copies of tag, text
and attributes.  The text copy in the NewGen XMLNode_copy is guarded on
the destination's just-freed text pointer instead of the source's, so
the destination's text is always empty after a copy: copying a node
whose text is hi yields a node with tag and attributes copied but no
text at all. -/
theorem C2_copy_text_not_copied :
    NewGen.XMLNode_copy (XMLTree.node XMLNode_init []) (some copySrc) false
      = some (true, XMLTree.node
          { tag := some (cstr "a"), text := none
          , attributes := [{ name := cstr "x", value := cstr "1", active := true }]
          , tag_type := TAG_FATHER, active := true } [])
  ∧ copySrc.data.text = some (cstr "hi") :=
  ⟨rfl, rfl⟩

/-! ## C3 -/

/-- C3 (counterexample): registering the delimiters of the claim is
refused — XML_register_user_tag requires the start delimiter to begin
with a left angle bracket, and a double-left-brace does not — and the
classifier then reports the braced tag text as malformed (TAG_NONE,
which is not the registered kind). -/
theorem C3_braces_rejected :
    (NewGen.XML_register_user_tag [] 100 [braceL, braceL] [braceR, braceR]).1 = false
  ∧ (NewGen.XML_parse_1string
        (NewGen.XML_register_user_tag [] 100 [braceL, braceL] [braceR, braceR]).2
        [braceL, braceL, 'x', braceR, braceR]).1 = TAG_NONE
  ∧ TAG_NONE ≠ (100 : Int) := by
  decide

/-- A user-tag start delimiter the registry accepts: left angle bracket
then left brace. -/
def okStart : CStr := ['<', braceL]

/-- A user-tag end delimiter the registry accepts: right brace then
right angle bracket. -/
def okEnd : CStr := [braceR, '>']

/-- The tag text written with those delimiters around the payload x. -/
def okTagText : CStr := ['<', braceL, 'x', braceR, '>']

/-- C3 (amended): the registry refuses the claim's braces-only
delimiters (see the counterexample), so the claim holds once the
delimiters conform to the registry's own rule — start beginning with a
left angle bracket, end ending with a right angle bracket.  For every
kind at or above the user threshold, registering such a pair succeeds
and classifying a tag written with those delimiters returns that kind
with exactly the payload between them. -/
theorem C3_user_tag_amended (k : Int) (hk : TAG_USER ≤ k) :
    (NewGen.XML_register_user_tag [] k okStart okEnd).1 = true
  ∧ NewGen.XML_parse_1string (NewGen.XML_register_user_tag [] k okStart okEnd).2 okTagText
      = (k, { XMLNode_init with tag := some ['x'], tag_type := k }) := by
  have hk0 : ¬ k < TAG_USER := not_lt.mpr hk
  have hkne : ¬ k = TAG_NONE := by
    simp only [TAG_USER] at hk
    simp only [TAG_NONE]
    omega
  have hreg : NewGen.XML_register_user_tag [] k okStart okEnd
      = (true, [{ tag_type := k, start := okStart, endD := okEnd }]) := by
    unfold NewGen.XML_register_user_tag
    rw [if_neg hk0, if_neg (by decide), if_neg (by decide), List.nil_append]
  have huser : NewGen.specialLoop okTagText [{ tag_type := k, start := okStart, endD := okEnd }]
      = some (k, some ['x']) := by
    show (if (NewGen._parse_special_tag okTagText
              { tag_type := k, start := okStart, endD := okEnd }).1 = TAG_NONE
          then NewGen.specialLoop okTagText []
          else some (NewGen._parse_special_tag okTagText
              { tag_type := k, start := okStart, endD := okEnd }))
        = some (k, some ['x'])
    rw [show NewGen._parse_special_tag okTagText
          { tag_type := k, start := okStart, endD := okEnd } = (k, some ['x']) from rfl]
    rw [if_neg hkne]
  have hmain : NewGen.XML_parse_1string [{ tag_type := k, start := okStart, endD := okEnd }]
        okTagText = (k, { XMLNode_init with tag := some ['x'], tag_type := k }) := by
    unfold NewGen.XML_parse_1string
    rw [huser]
    exact rfl
  exact ⟨by rw [hreg], by rw [hreg]; exact hmain⟩

theorem C3_user_tag_amended_witness :
    TAG_USER ≤ (100 : Int)
  ∧ (NewGen.XML_register_user_tag [] 100 okStart okEnd).1 = true
  ∧ NewGen.XML_parse_1string (NewGen.XML_register_user_tag [] 100 okStart okEnd).2 okTagText
      = (100, { XMLNode_init with tag := some ['x'], tag_type := 100 }) :=
  ⟨by decide, (C3_user_tag_amended 100 (by decide)).1, (C3_user_tag_amended 100 (by decide)).2⟩

/-! ## C4 -/

/-- A node holding one INACTIVE attribute named x with value 1. -/
def nodeInactiveX : XMLNode :=
  { tag := some (cstr "n"), text := none
  , attributes := [{ name := cstr "x", value := cstr "1", active := false }]
  , tag_type := TAG_FATHER, active := true }

/-- C4 (counterexample): the claim says set_attribute updates in place
whenever an entry of the name exists, active or not, reactivating an
inactive one.  The search it uses skips inactive entries, so setting x
on a node whose only x entry is inactive appends a second entry: the
count goes to 2 and the inactive entry keeps its old value and stays
inactive. -/
theorem C4_inactive_not_reactivated :
    (NewGen.XMLNode_set_attribute true nodeInactiveX (cstr "x") (cstr "2")).2.attributes.length = 2
  ∧ (NewGen.XMLNode_set_attribute true nodeInactiveX (cstr "x") (cstr "2")).2.attributes.get? 0
      = some { name := cstr "x", value := cstr "1", active := false } := by
  decide

/-! ## C5 -/

/-- C5: a comment with a literal greater-than sign inside.  Cut at the
first greater-than sign the classifier reports TAG_PARTIAL (not the
malformed result 0); on the whole text it yields a single comment node
whose payload is the text between the delimiters, spaces included. -/
theorem C5_comment_partial_then_payload :
    (NewGen.XML_parse_1string [] (cstr "<!-- a >")).1 = TAG_PARTIAL
  ∧ TAG_PARTIAL ≠ (0 : Int)
  ∧ NewGen.XML_parse_1string [] (cstr "<!-- a > b -->")
      = (TAG_COMMENT, { XMLNode_init with tag := some (cstr " a > b ")
                                        , tag_type := TAG_COMMENT }) := by
  exact ⟨rfl, by decide, rfl⟩

/-! ## C6 -/

/-- A node with two ACTIVE attributes that share the name x. -/
def nodeDupX : XMLNode :=
  { tag := some (cstr "n"), text := none
  , attributes := [ { name := cstr "x", value := cstr "1", active := true }
                  , { name := cstr "x", value := cstr "2", active := true } ]
  , tag_type := TAG_FATHER, active := true }

/-- C6 (counterexample): attribute storage allows duplicate names.
Removing index 0 (named x) from a node whose index 1 also holds an
active x leaves a node where searching for x still succeeds (index 0 of
the shrunk array), so the claim's for-every-node find-returns-not-found
part fails; the count does drop to 1 here. -/
theorem C6_duplicate_name_counterexample :
    (NewGen.XMLNode_remove_attribute nodeDupX 0).1 = 1
  ∧ NewGen.XMLNode_search_attribute
        (NewGen.XMLNode_remove_attribute nodeDupX 0).2 (cstr "x") 0 ≠ -1 := by
  decide

/-! ## C7 -/

/-- A builder state whose cursor sits on a root element that already
holds the text AB. -/
def openRootAB : NewGen.DOM_through_SAX :=
  { top := [], i_root := 0
  , stack := [({ nodeRootStart with text := some (cstr "AB") }, [])] }

/-- The OldGen counterpart: doc->root is the root element with text AB
and the father pointer rests on it. -/
def oldOpenRootAB : OldGen.OldDoc :=
  { pre_root := [], rootData := some ({ nodeRootStart with text := some (cstr "AB") }, [])
  , path := [], fatherNull := false }

/-- A self-closing element c, as OldGen iteration payload. -/
def nodeCSelf : XMLNode :=
  { tag := some (cstr "c"), text := none, attributes := [], tag_type := TAG_SELF, active := true }

/-- C7: the claim says a non-whitespace Text event is concatenated to
the open element's text, and is fatal with no open element.  The NewGen
DOMXMLDoc_node_text instead overwrites: text CD on a cursor holding AB
leaves CD, not ABCD.  Its whitespace scan also steps past the first
non-space character before testing, so the one-character text x with no
open element is reported as whitespace and accepted (no error), while
xy in the same position is fatal as claimed.  The OldGen DOM loop does
concatenate: the same text CD arriving at a root holding AB gives ABCD. -/
theorem C7_text_replace_not_append :
    NewGen.DOMXMLDoc_node_text (cstr "CD") openRootAB
      = some { top := [], i_root := 0
             , stack := [({ nodeRootStart with text := some (cstr "CD") }, [])] }
  ∧ NewGen.DOMXMLDoc_node_text (cstr "x") NewGen.DOM_init = some NewGen.DOM_init
  ∧ NewGen.DOMXMLDoc_node_text (cstr "xy") NewGen.DOM_init = none
  ∧ (OldGen.oldDomStep oldOpenRootAB ⟨cstr "CD", some nodeCSelf⟩).map
        (fun st => st.rootData.map (fun r => r.1.text))
      = .ok (some (some (cstr "ABCD"))) :=
  ⟨rfl, rfl, rfl, rfl⟩

/-! ## C8 -/

theorem chain_not_halted : ∀ (cbs : List (Option Raised)), (chain cbs).2 = false →
    ∀ e ∈ (chain cbs).1, e.resp = true := by
  intro cbs
  induction cbs with
  | nil => intro _ e he; simp [chain] at he
  | cons c rest ih =>
      cases c with
      | none => intro h e he; exact ih h e he
      | some a =>
          intro h e he
          cases hr : a.resp with
          | false => simp [chain, hr] at h
          | true =>
              simp only [chain, hr, if_true] at h he
              rcases List.mem_cons.1 he with rfl | hm
              · exact hr
              · exact ih h e hm

theorem chain_dropLast : ∀ (cbs : List (Option Raised)),
    ∀ e ∈ (chain cbs).1.dropLast, e.resp = true := by
  intro cbs
  induction cbs with
  | nil => intro e he; simp [chain] at he
  | cons c rest ih =>
      cases c with
      | none => intro e he; exact ih e he
      | some a =>
          intro e he
          cases hr : a.resp with
          | false => simp [chain, hr] at he
          | true =>
              simp only [chain, hr, if_true] at he
              rcases htr : (chain rest).1 with _ | ⟨b, tl⟩
              · rw [htr] at he; simp at he
              · rw [htr, List.dropLast_cons₂] at he
                rcases List.mem_cons.1 he with rfl | hm
                · exact hr
                · exact ih e (htr ▸ hm)

theorem mem_dropLast_append {α : Type _} {e : α} {l1 l2 : List α}
    (h : e ∈ (l1 ++ l2).dropLast) : e ∈ l1 ∨ e ∈ l2.dropLast := by
  cases l2 with
  | nil => rw [List.append_nil] at h; exact Or.inl (List.dropLast_subset _ h)
  | cons b tl =>
      rw [List.dropLast_append_cons] at h
      exact List.mem_append.1 h

/-- Per-iteration facts of the NewGen driver: an iteration that falls
through, or one that breaks with an error, raised only callbacks that
returned continue; and in every iteration all raised callbacks except
possibly the last returned continue. -/
theorem stepItem_spec (sax : NewGen.SAX_Callbacks) (it : SaxItem) :
    ((NewGen.stepItem sax it).2 = .cont → ∀ e ∈ (NewGen.stepItem sax it).1, e.resp = true)
  ∧ ((NewGen.stepItem sax it).2 = .failed → ∀ e ∈ (NewGen.stepItem sax it).1, e.resp = true)
  ∧ (∀ e ∈ (NewGen.stepItem sax it).1.dropLast, e.resp = true) := by
  have hTdrop := chain_dropLast (NewGen.textCbs sax it)
  have hTnh := chain_not_halted (NewGen.textCbs sax it)
  rcases h1 : chain (NewGen.textCbs sax it) with ⟨t1, b1⟩
  rw [h1] at hTdrop hTnh
  cases b1 with
  | true =>
      have hstep : NewGen.stepItem sax it = (t1, .stopped) := by
        simp [NewGen.stepItem, h1]
      rw [hstep]
      exact ⟨(fun h => nomatch h), (fun h => nomatch h), hTdrop⟩
  | false =>
      have htext : ∀ e ∈ t1, e.resp = true := hTnh rfl
      cases hp : it.parsed with
      | none =>
          have hstep : NewGen.stepItem sax it = (t1, .failed) := by
            simp [NewGen.stepItem, h1, hp]
          rw [hstep]
          exact ⟨(fun h => nomatch h), fun _ => htext,
                 fun e he => htext e (List.dropLast_subset _ he)⟩
      | some node =>
          have hUdrop := chain_dropLast (NewGen.tagCbs sax node)
          have hUnh := chain_not_halted (NewGen.tagCbs sax node)
          rcases h2 : chain (NewGen.tagCbs sax node) with ⟨t2, b2⟩
          rw [h2] at hUdrop hUnh
          cases b2 with
          | true =>
              have hstep : NewGen.stepItem sax it = (t1 ++ t2, .stopped) := by
                simp [NewGen.stepItem, h1, hp, h2]
              rw [hstep]
              refine ⟨(fun h => nomatch h), (fun h => nomatch h), fun e he => ?_⟩
              rcases mem_dropLast_append he with hx | hx
              · exact htext e hx
              · exact hUdrop e hx
          | false =>
              have htag : ∀ e ∈ t2, e.resp = true := hUnh rfl
              have hall : ∀ e ∈ t1 ++ t2, e.resp = true := by
                intro e he
                rcases List.mem_append.1 he with hx | hx
                · exact htext e hx
                · exact htag e hx
              have hstep : NewGen.stepItem sax it = (t1 ++ t2, .cont) := by
                simp [NewGen.stepItem, h1, hp, h2]
              rw [hstep]
              exact ⟨fun _ => hall, (fun h => nomatch h),
                     fun e he => hall e (List.dropLast_subset _ he)⟩

/-- The NewGen driver never raises a callback after one that returned
stop, and a run that saw a stop (and therefore broke early) still ends
with ret = true. -/
theorem saxRun_spec (sax : NewGen.SAX_Callbacks) : ∀ items : List SaxItem,
    (∀ e ∈ (NewGen.saxRun sax items).1.dropLast, e.resp = true)
  ∧ ((NewGen.saxRun sax items).2 = false → ∀ e ∈ (NewGen.saxRun sax items).1, e.resp = true) := by
  intro items
  induction items with
  | nil => exact ⟨by simp [NewGen.saxRun], by simp [NewGen.saxRun]⟩
  | cons it rest ih =>
      have hspec := stepItem_spec sax it
      rcases hs : NewGen.stepItem sax it with ⟨tr, out⟩
      rw [hs] at hspec
      have hrun : NewGen.saxRun sax (it :: rest) =
          match (tr, out) with
          | (tr, .cont) =>
              ((tr ++ (NewGen.saxRun sax rest).1, (NewGen.saxRun sax rest).2) :
                List Raised × Bool)
          | (tr, .stopped) => (tr, true)
          | (tr, .failed) => (tr, false) := by
        rw [NewGen.saxRun, hs]
      cases out with
      | cont =>
          have htr : ∀ e ∈ tr, e.resp = true := hspec.1 rfl
          rw [hrun]
          constructor
          · intro e he
            rcases mem_dropLast_append he with h1 | h2
            · exact htr e h1
            · exact ih.1 e h2
          · intro hret e he
            rcases List.mem_append.1 he with h1 | h2
            · exact htr e h1
            · exact ih.2 hret e h2
      | stopped =>
          rw [hrun]
          exact ⟨hspec.2.2, (fun hret => nomatch hret)⟩
      | failed =>
          rw [hrun]
          exact ⟨fun e he => hspec.2.1 rfl e (List.dropLast_subset _ he),
                 fun _ => hspec.2.1 rfl⟩

/-- C8: the claim that a stop signal is honored immediately (no further
callbacks of any kind) and propagates as a clean non-error stop holds
for the NewGen event source: in any run, every raised callback except
possibly the last returned continue (so nothing is ever raised after a
stop), and a run whose trace contains a stop returns true to the
caller.  The OldGen driver violates the claim; see the counterexample
theorem. -/
theorem C8_stop_honored_newgen (sax : NewGen.SAX_Callbacks) (items : List SaxItem) :
    (∀ e ∈ (NewGen.saxRun sax items).1.dropLast, e.resp = true)
  ∧ ((∃ e ∈ (NewGen.saxRun sax items).1, e.resp = false) →
      (NewGen.saxRun sax items).2 = true) := by
  refine ⟨(saxRun_spec sax items).1, ?_⟩
  rintro ⟨e, he, hresp⟩
  cases hret : (NewGen.saxRun sax items).2
  · have := (saxRun_spec sax items).2 hret e he
    rw [this] at hresp
    cases hresp
  · rfl

/-- A listener that stops on the first text callback. -/
def stopListener : NewGen.SAX_Callbacks :=
  { start_node := some (fun _ => true), end_node := some (fun _ => true)
  , new_text := some (fun _ => false), all_event := none }

/-- Two input iterations with text, so that callbacks would follow the
stop if the driver kept going. -/
def stopItems : List SaxItem :=
  [⟨cstr "t", some nodeRootStart⟩, ⟨cstr "u", some nodeAStart⟩]

theorem C8_stop_honored_newgen_witness :
    (∀ e ∈ (NewGen.saxRun stopListener stopItems).1.dropLast, e.resp = true)
  ∧ (NewGen.saxRun stopListener stopItems).2 = true :=
  ⟨(C8_stop_honored_newgen stopListener stopItems).1,
   (C8_stop_honored_newgen stopListener stopItems).2
     ⟨{ kind := .newText, resp := false }, by decide, rfl⟩⟩

/-- An OldGen listener that stops on the first text callback and also
registers end_doc. -/
def oldStopListener : OldGen.SAX_Callbacks :=
  { start_doc := none, end_doc := some (fun _ => true), start_node := none
  , end_node := none, new_text := some (fun _ => false), new_attribute := none }

/-- C8 (counterexample): the OldGen driver does raise a callback after
one returned stop.  With a listener whose new_text stops at the first
text and which registers end_doc, the run's trace is the stopping
new_text followed by end_doc — the driver calls end_doc unconditionally
after leaving the loop, stop or no stop.  So the universally stated
claim fails on this event source. -/
theorem C8_oldgen_callback_after_stop :
    (OldGen.saxRun oldStopListener [⟨cstr "t", some nodeRootStart⟩]).1
      = [{ kind := .newText, resp := false }, { kind := .endDoc, resp := true }]
  ∧ ¬ (∀ e ∈ (OldGen.saxRun oldStopListener [⟨cstr "t", some nodeRootStart⟩]).1.dropLast,
        e.resp = true) := by
  decide

/-! ## C4 and C6, amended: facts about the active-only search -/

theorem attrFind_none_iff : ∀ (attrs : List XMLAttribute) (name : CStr),
    NewGen.attrFind attrs name = none ↔ ∀ a ∈ attrs, ¬(a.active = true ∧ a.name = name) := by
  intro attrs name
  induction attrs with
  | nil => simp [NewGen.attrFind]
  | cons a rest ih =>
      cases hp : (a.active && a.name == name) with
      | true =>
          simp only [NewGen.attrFind, hp, if_true]
          constructor
          · intro hcontr; cases hcontr
          · intro hall
            exfalso
            exact hall a (List.mem_cons_self a rest)
              (by simpa [Bool.and_eq_true, beq_iff_eq] using hp)
      | false =>
          simp only [NewGen.attrFind, hp, Bool.false_eq_true, if_false,
                     Option.map_eq_none', List.mem_cons]
          constructor
          · intro hrest b hb
            rcases hb with rfl | hb
            · simpa [Bool.and_eq_true, beq_iff_eq] using hp
            · exact (ih.1 hrest) b hb
          · intro hall
            exact ih.2 (fun b hb => hall b (Or.inr hb))

theorem attrFind_some_spec : ∀ (attrs : List XMLAttribute) (name : CStr) (j : Nat),
    NewGen.attrFind attrs name = some j →
    ∃ a, attrs[j]? = some a ∧ a.active = true ∧ a.name = name := by
  intro attrs
  induction attrs with
  | nil => intro name j hj; simp [NewGen.attrFind] at hj
  | cons a rest ih =>
      intro name j hj
      cases hp : (a.active && a.name == name) with
      | true =>
          simp only [NewGen.attrFind, hp, if_true, Option.some.injEq] at hj
          subst hj
          exact ⟨a, by simp, by simpa [Bool.and_eq_true, beq_iff_eq] using hp⟩
      | false =>
          simp only [NewGen.attrFind, hp, Bool.false_eq_true, if_false,
                     Option.map_eq_some'] at hj
          rcases hj with ⟨j', hj', rfl⟩
          rcases ih name j' hj' with ⟨b, hb, hprops⟩
          exact ⟨b, by simpa using hb, hprops⟩

theorem setAttrValueAt_length : ∀ (attrs : List XMLAttribute) (i : Nat) (v : CStr),
    (NewGen.setAttrValueAt attrs i v).length = attrs.length := by
  intro attrs
  induction attrs with
  | nil => intro i v; rfl
  | cons a rest ih =>
      intro i v
      cases i with
      | zero => rfl
      | succ i => simp [NewGen.setAttrValueAt, ih]

theorem setAttrValueAt_get_self : ∀ (attrs : List XMLAttribute) (i : Nat) (v : CStr),
    (NewGen.setAttrValueAt attrs i v)[i]? = (attrs[i]?).map (fun a => { a with value := v }) := by
  intro attrs
  induction attrs with
  | nil => intro i v; cases i <;> rfl
  | cons a rest ih =>
      intro i v
      cases i with
      | zero => simp [NewGen.setAttrValueAt]
      | succ i => simpa [NewGen.setAttrValueAt] using ih i v

theorem setAttrValueAt_get_other : ∀ (attrs : List XMLAttribute) (i : Nat) (v : CStr)
    (m : Nat), m ≠ i → (NewGen.setAttrValueAt attrs i v)[m]? = attrs[m]? := by
  intro attrs
  induction attrs with
  | nil => intro i v m _; cases m <;> rfl
  | cons a rest ih =>
      intro i v m hmi
      cases i with
      | zero =>
          cases m with
          | zero => exact absurd rfl hmi
          | succ m => simp [NewGen.setAttrValueAt]
      | succ i =>
          cases m with
          | zero => simp [NewGen.setAttrValueAt]
          | succ m =>
              simpa [NewGen.setAttrValueAt] using ih i v m (fun hc => hmi (by rw [hc]))

/-- XMLNode_search_attribute from index 0 with a non-empty name and no
active match returns the not-found sentinel. -/
theorem search_attr_zero_none (node : XMLNode) (name : CStr) (h : name ≠ [])
    (hf : NewGen.attrFind node.attributes name = none) :
    NewGen.XMLNode_search_attribute node name 0 = -1 := by
  unfold NewGen.XMLNode_search_attribute
  rw [if_neg (by push_neg; exact ⟨h, by omega, by omega⟩)]
  simp [Int.toNat_zero, List.drop_zero, hf]

/-- XMLNode_search_attribute from index 0 with a non-empty name returns
the index of the lowest active match when there is one. -/
theorem search_attr_zero_some (node : XMLNode) (name : CStr) (j : Nat) (h : name ≠ [])
    (hf : NewGen.attrFind node.attributes name = some j) :
    NewGen.XMLNode_search_attribute node name 0 = (j : Int) := by
  unfold NewGen.XMLNode_search_attribute
  rw [if_neg (by push_neg; exact ⟨h, by omega, by omega⟩)]
  simp [Int.toNat_zero, List.drop_zero, hf]

/-- C4 (amended): set_attribute updates in place only when an ACTIVE
attribute with the name exists — the search skips inactive entries —
and otherwise appends a fresh entry, whose active flag the C leaves
uninitialized (here: the arbitrary uninit bit).  When the lowest active
match sits at index j, the entry there gets the new value and keeps its
name and active flag, every other entry is untouched, and the count is
unchanged; with no active match the entries are kept and the new one
appended.  Inactive entries are never updated or reactivated. -/
theorem C4_set_attribute_amended (uninit : Bool) (node : XMLNode) (name value : CStr)
    (hname : name ≠ []) :
    (NewGen.attrFind node.attributes name = none →
        (NewGen.XMLNode_set_attribute uninit node name value).2.attributes
            = node.attributes ++ [{ name := name, value := value, active := uninit }]
      ∧ (NewGen.XMLNode_set_attribute uninit node name value).1
            = (node.attributes.length : Int) + 1)
  ∧ (∀ j : Nat, NewGen.attrFind node.attributes name = some j →
        (∃ a, node.attributes[j]? = some a ∧ a.active = true ∧ a.name = name)
      ∧ (NewGen.XMLNode_set_attribute uninit node name value).1
            = (node.attributes.length : Int)
      ∧ (NewGen.XMLNode_set_attribute uninit node name value).2.attributes[j]?
            = (node.attributes[j]?).map (fun a => { a with value := value })
      ∧ (∀ m : Nat, m ≠ j →
            (NewGen.XMLNode_set_attribute uninit node name value).2.attributes[m]?
              = node.attributes[m]?)) := by
  constructor
  · intro hnone
    have hsz := search_attr_zero_none node name hname hnone
    have hset : NewGen.XMLNode_set_attribute uninit node name value
        = ((((node.attributes ++ [({ name := name, value := value, active := uninit }
                : XMLAttribute)]).length : Nat) : Int),
           { node with attributes :=
               node.attributes ++ [{ name := name, value := value, active := uninit }] }) := by
      unfold NewGen.XMLNode_set_attribute
      rw [if_neg hname, hsz, if_neg (by omega)]
    rw [hset]
    refine ⟨rfl, ?_⟩
    simp
  · intro j hj
    have hsz := search_attr_zero_some node name j hname hj
    have hset : NewGen.XMLNode_set_attribute uninit node name value
        = ((((NewGen.setAttrValueAt node.attributes j value).length : Nat) : Int),
           { node with attributes := NewGen.setAttrValueAt node.attributes j value }) := by
      unfold NewGen.XMLNode_set_attribute
      rw [if_neg hname, hsz, if_pos (by omega), Int.toNat_natCast]
    rw [hset]
    exact ⟨attrFind_some_spec node.attributes name j hj,
           by simp [setAttrValueAt_length],
           setAttrValueAt_get_self node.attributes j value,
           fun m hm => setAttrValueAt_get_other node.attributes j value m hm⟩

/-- A node with one active attribute named x. -/
def nodeActiveX : XMLNode :=
  { tag := some (cstr "n"), text := none
  , attributes := [{ name := cstr "x", value := cstr "1", active := true }]
  , tag_type := TAG_FATHER, active := true }

theorem C4_set_attribute_amended_witness :
    cstr "x" ≠ []
  ∧ (NewGen.XMLNode_set_attribute false nodeActiveX (cstr "x") (cstr "2")).2.attributes[0]?
      = some { name := cstr "x", value := cstr "2", active := true } := by
  refine ⟨by decide, ?_⟩
  have h := (C4_set_attribute_amended false nodeActiveX (cstr "x") (cstr "2")
      (by decide)).2 0 (by decide)
  rw [h.2.2.1]
  decide

/-- C6 (amended): for a valid index whose attribute name is carried by
no other entry that is active, removing the attribute returns a count
one smaller, keeps every earlier entry in place and shifts each later
entry down by exactly one (order preserved), and a subsequent search
for the removed name finds nothing. -/
theorem C6_remove_then_search_amended (node : XMLNode) (i : Nat)
    (h : i < node.attributes.length)
    (hothers : ∀ a ∈ node.attributes.take i ++ node.attributes.drop (i + 1),
        a.active = true → a.name ≠ (node.attributes.get ⟨i, h⟩).name) :
    (NewGen.XMLNode_remove_attribute node (i : Int)).1 = (node.attributes.length : Int) - 1
  ∧ (∀ m : Nat, m < i →
        (NewGen.XMLNode_remove_attribute node (i : Int)).2.attributes[m]?
          = node.attributes[m]?)
  ∧ (∀ m : Nat, i ≤ m →
        (NewGen.XMLNode_remove_attribute node (i : Int)).2.attributes[m]?
          = node.attributes[m + 1]?)
  ∧ NewGen.XMLNode_search_attribute (NewGen.XMLNode_remove_attribute node (i : Int)).2
        (node.attributes.get ⟨i, h⟩).name 0 = -1 := by
  have hrem : NewGen.XMLNode_remove_attribute node (i : Int)
      = ((((node.attributes.take i ++ node.attributes.drop (i + 1)).length : Nat) : Int),
         { node with attributes := node.attributes.take i ++ node.attributes.drop (i + 1) }) := by
    unfold NewGen.XMLNode_remove_attribute
    rw [if_neg (by omega), Int.toNat_natCast]
  rw [hrem]
  refine ⟨?_, ?_, ?_, ?_⟩
  · simp only [List.length_append, List.length_take, List.length_drop]
    omega
  · intro m hm
    have hlt : m < (node.attributes.take i).length := by
      simp only [List.length_take]; omega
    rw [List.getElem?_append_left hlt, List.getElem?_take, if_pos hm]
  · intro m hm
    have hge : (node.attributes.take i).length ≤ m := by
      simp only [List.length_take]; omega
    rw [List.getElem?_append_right hge, List.getElem?_drop]
    have : i + 1 + (m - (node.attributes.take i).length) = m + 1 := by
      simp only [List.length_take]; omega
    rw [this]
  · by_cases hn : (node.attributes.get ⟨i, h⟩).name = []
    · unfold NewGen.XMLNode_search_attribute
      rw [if_pos (Or.inl hn)]
    · refine search_attr_zero_none _ _ hn ?_
      rw [attrFind_none_iff]
      intro a ha hcontr
      exact hothers a ha hcontr.1 hcontr.2

/-- A node with two active attributes, x then y. -/
def nodeXY : XMLNode :=
  { tag := some (cstr "n"), text := none
  , attributes := [ { name := cstr "x", value := cstr "1", active := true }
                  , { name := cstr "y", value := cstr "2", active := true } ]
  , tag_type := TAG_FATHER, active := true }

theorem C6_remove_then_search_amended_witness :
    (0 : Nat) < nodeXY.attributes.length
  ∧ (NewGen.XMLNode_remove_attribute nodeXY ((0 : Nat) : Int)).1
      = (nodeXY.attributes.length : Int) - 1 := by
  refine ⟨by decide, ?_⟩
  exact (C6_remove_then_search_amended nodeXY 0 (by decide) (by decide)).1

/-! ## C9 -/

/-- C9: an attribute value that opens with a double quote and never
closes it.  The decoder still returns the attribute — name x, value v —
with status 2, which is distinct from success (1) and from malformed
(0).  But inside a whole tag the quote scan runs to the end of the
string looking for the closing quote, past the terminating
greater-than sign, so the attribute loop's position ends up beyond the
string and XML_parse_1string falls into its "WE SHOULD NOT BE HERE"
path: it frees the node and returns 0 — the enclosing tag parse does
abort, contrary to the last part of the claim. -/
theorem C9_quote_mismatch_aborts_tag_parse :
    NewGen.XML_parse_attribute (cstr "x=\"v>")
      = (2, some { name := cstr "x", value := cstr "v", active := true })
  ∧ (2 : Int) ≠ 1 ∧ (2 : Int) ≠ 0
  ∧ (NewGen.XML_parse_1string [] (cstr "<a x=\"v>")).1 = 0 := by
  exact ⟨rfl, by decide, by decide, rfl⟩

/-! ## C10 -/

/-- C10: copying from a NULL source is not an error: for every
destination and either value of the deep flag, the destination comes
back freed and reset — no tag, no text, no attributes, no children,
tag_type cleared, the active flag untouched — and the call returns
success. -/
theorem C10_copy_null_resets (dst : XMLTree) (copy_children : Bool) :
    NewGen.XMLNode_copy dst none copy_children
      = some (true, XMLTree.node
          { tag := none, text := none, attributes := [], tag_type := TAG_NONE
          , active := dst.data.active } []) :=
  rfl

theorem C10_copy_null_resets_witness :
    NewGen.XMLNode_copy copySrc none true
      = some (true, XMLTree.node
          { tag := none, text := none, attributes := [], tag_type := TAG_NONE
          , active := copySrc.data.active } []) :=
  C10_copy_null_resets copySrc true

end Sxmlc
